import Mathlib

/-!
Verification development for the webmesh node control plane.

The definitions below are shallow embeddings of:
  - ACL evaluation (pkg/meshdb/networking/eval.go),
  - the topology resolver (pkg/util/meshutil/peers.go),
  - the snapshotter (snapshots package: Snapshot / Restore),
  - the raft observer loop (store package: store.observe),
  - the membership Leave handler (pkg/services/membership/leave.go).

Go maps iterate in unspecified order; wherever the source ranges over a
map, the embedding takes the enumeration order as explicit list order and
theorems either hold for every order or exhibit one realizable order.
Machine integers that cannot overflow in the modelled paths are embedded
as Int / Nat.
-/

namespace Webmesh

/-! ACL data model (pkg/meshdb/networking/eval.go, v1.NetworkACL). -/

/-- ACLAction_ACTION_ACCEPT / ACLAction_ACTION_DENY. -/
inductive ACLActionKind
| deny
| accept
deriving DecidableEq, Repr

/-- v1.NetworkACL as used by eval.go: priority, action, and the six
constraint lists. -/
structure NetworkACL where
  name : String
  priority : Int
  action : ACLActionKind
  sourceNodes : List String
  destinationNodes : List String
  sourceCidrs : List String
  destinationCidrs : List String
  protocols : List String
  ports : List Nat
deriving DecidableEq, Repr

/-- v1.NetworkAction: the action an ACL is evaluated against. -/
structure NetworkAction where
  srcNode : String
  dstNode : String
  srcCidr : String
  dstCidr : String
  protocol : String
  port : Nat
deriving DecidableEq, Repr

/-- v1.SubjectType as used in group expansion (SUBJECT_NODE / SUBJECT_USER /
SUBJECT_ALL). -/
inductive SubjectKind
| node
| user
| all
deriving DecidableEq, Repr

/-- A group subject: type and name. -/
structure Subject where
  kind : SubjectKind
  name : String
deriving DecidableEq, Repr

/-- A group as returned by rbac.GetGroup: its subject list. -/
structure RBACGroup where
  subjects : List Subject
deriving DecidableEq, Repr

/-- Result of rbac.GetGroup: found, ErrGroupNotFound, or another storage
error (which makes Matches return false). -/
inductive GroupLookup
| found (g : RBACGroup)
| notFound
| lookupFailed
deriving DecidableEq, Repr

/-- The storage view the ACL evaluator consults for group membership. -/
structure GroupStore where
  getGroup : String → GroupLookup

/-- Go strings.HasPrefix, computed on character lists (the byte-exact
semantics on these all-ASCII inputs) so that terms reduce in the kernel. -/
def strHasPrefix (s pre : String) : Bool :=
  pre.toList.isPrefixOf s.toList

/-- Go strings.HasSuffix, on character lists. -/
def strHasSuffix (s suf : String) : Bool :=
  suf.toList.isSuffixOf s.toList

/-- Go strings.Contains(v, single-character sep), on character lists. -/
def strContainsChar (v : String) (c : Char) : Bool :=
  v.toList.contains c

/-- Go strings.TrimPrefix for a known-length prefix: drop n leading
characters. -/
def strDropChars (v : String) (n : Nat) : String :=
  ⟨v.toList.drop n⟩

/-- Go strings.TrimSuffix for a one-character suffix: drop the last
character. -/
def strDropLast (v : String) : String :=
  ⟨v.toList.dropLast⟩

/-- Split a character list on a separator character, Go strings.Split
semantics (empty segments kept). -/
def splitOnChar (c : Char) : List Char → List (List Char)
  | [] => [[]]
  | x :: xs =>
    if x = c then [] :: splitOnChar c xs
    else
      match splitOnChar c xs with
      | [] => [[x]]
      | h :: t => (x :: h) :: t

/-- Go strings.Split(v, single-character sep). -/
def strSplitOn (v : String) (c : Char) : List String :=
  (splitOnChar c v.toList).map fun l => ⟨l⟩

/-- containsOrWildcardMatch from eval.go: an entry matches if it is the
wildcard, a glob with one star (prefix / suffix / both), or the literal. -/
def containsOrWildcardMatch (ss : List String) (s : String) : Bool :=
  ss.any fun v =>
    if v = "*" then true
    else if strContainsChar v '*' then
      if strHasPrefix v "*" then strHasSuffix s (strDropChars v 1)
      else if strHasSuffix v "*" then strHasPrefix s (strDropLast v)
      else
        let parts := strSplitOn v '*'
        strHasPrefix s (parts.getD 0 "") && strHasSuffix s (parts.getD 1 "")
    else v = s

/-- containsPort from eval.go. -/
def containsPort (pp : List Nat) (p : Nat) : Bool :=
  pp.any fun v => v = p

/-- replace from eval.go: every element equal to obj is replaced by the
member list, other elements are kept. -/
def replaceRef (xs : List String) (obj : String) (members : List String) : List String :=
  xs.flatMap fun v => if v = obj then members else [v]

/-- Insert or append into the expansion map, keyed by trimmed group name.
The Go code appends member names one by one, creating the map entry only
when at least one subject qualifies; map insertion order is modelled as
association-list order. -/
def upsertAppend (groups : List (String × List String)) (k : String)
    (vs : List String) : List (String × List String) :=
  if (groups.lookup k).isSome then
    groups.map fun e => if e.1 = k then (e.1, e.2 ++ vs) else e
  else groups ++ [(k, vs)]

/-- The group-expansion map builder from ACL.Matches. For each list entry
of the form group:X it resolves the group and collects its node/all
subjects. Note two quirks reproduced from the source: the duplicate check
looks the map up under the untrimmed key (group:X) while insertions are
keyed by the trimmed name X, and a group with no qualifying subject
creates no entry. A lookup failure other than not-found aborts (Matches
returns false), modelled as none. -/
def buildGroups (st : GroupStore) (nodes : List String) :
    Option (List (String × List String)) :=
  nodes.foldlM (fun groups node =>
    if strHasPrefix node "group:" then
      if (groups.lookup node).isSome then some groups
      else
        let groupName := strDropChars node 6
        match st.getGroup groupName with
        | .lookupFailed => none
        | .notFound => some groups
        | .found g =>
          let members := (g.subjects.filter fun s =>
            s.kind = SubjectKind.all ∨ s.kind = SubjectKind.node).map Subject.name
          if members.isEmpty then some groups
          else some (upsertAppend groups groupName members)
    else some groups) []

/-- Replacement phase of ACL.Matches: for each expanded group (in map
order), if the list still holds the group:X reference, every occurrence
is replaced by the member list. -/
def applyGroups (groups : List (String × List String)) (nodes : List String) :
    List String :=
  groups.foldl (fun nodes e =>
    if nodes.contains ("group:" ++ e.1) then replaceRef nodes ("group:" ++ e.1) e.2
    else nodes) nodes

/-- The source-nodes block of ACL.Matches (the guard in the source is
len(acl.GetSourceNodes()) >= 0, which is always true). Returns the check
result together with the ACL as left in storage: the source assigns the
expanded list back onto acl.SourceNodes. -/
def srcNodesCheck (st : GroupStore) (acl : NetworkACL) (action : NetworkAction) :
    Bool × NetworkACL :=
  if action.srcNode ≠ "" then
    match buildGroups st acl.sourceNodes with
    | none => (false, acl)
    | some groups =>
      let acl := { acl with sourceNodes := applyGroups groups acl.sourceNodes }
      (containsOrWildcardMatch acl.sourceNodes action.srcNode, acl)
  else (true, acl)

/-- The destination-nodes block of ACL.Matches, symmetric to
srcNodesCheck. -/
def dstNodesCheck (st : GroupStore) (acl : NetworkACL) (action : NetworkAction) :
    Bool × NetworkACL :=
  if action.dstNode ≠ "" then
    match buildGroups st acl.destinationNodes with
    | none => (false, acl)
    | some groups =>
      let acl := { acl with destinationNodes := applyGroups groups acl.destinationNodes }
      (containsOrWildcardMatch acl.destinationNodes action.dstNode, acl)
  else (true, acl)

/-- ACL.Matches from eval.go. The pair carries the boolean result and the
ACL as it stands after the call, since the source mutates the stored ACL
in place when it expands group references. Every early exit in the source
returns false; true is only returned after all six checks pass. -/
def matchesACL (st : GroupStore) (acl : NetworkACL) (action : NetworkAction) :
    Bool × NetworkACL :=
  match srcNodesCheck st acl action with
  | (false, acl) => (false, acl)
  | (true, acl) =>
    match dstNodesCheck st acl action with
    | (false, acl) => (false, acl)
    | (true, acl) =>
      if action.srcCidr ≠ "" ∧ ¬containsOrWildcardMatch acl.sourceCidrs action.srcCidr then
        (false, acl)
      else if action.dstCidr ≠ "" ∧ ¬containsOrWildcardMatch acl.destinationCidrs action.dstCidr then
        (false, acl)
      else if action.protocol ≠ "" ∧ ¬containsOrWildcardMatch acl.protocols action.protocol then
        (false, acl)
      else if action.port ≠ 0 ∧ ¬containsPort acl.ports action.port then
        (false, acl)
      else (true, acl)

/-- ACLs.Accept from eval.go: first matching ACL decides; no match (and
the nil list) denies. -/
def aclsAccept (st : GroupStore) (acls : List NetworkACL) (action : NetworkAction) :
    Bool :=
  match acls with
  | [] => false
  | acl :: rest =>
    if (matchesACL st acl action).1 then acl.action = ACLActionKind.accept
    else aclsAccept st rest action

/-- ACLs sorted for evaluation: descending priority (ACLs.Sort with
SortDescending). -/
def SortedByPriorityDesc (acls : List NetworkACL) : Prop :=
  acls.Pairwise fun a b => b.priority ≤ a.priority

/-- Modelled from the spec: the action FilterGraph evaluates for an edge
(a, b), namely src=a, dst=b, src_cidr=*, dst_cidr=*, proto=*, port=0.
FilterGraph itself is not under src/; only its caller and the Accept
evaluator it uses are. -/
def edgeAction (a b : String) : NetworkAction :=
  { srcNode := a, dstNode := b, srcCidr := "*", dstCidr := "*",
    protocol := "*", port := 0 }

/-- Modelled from the spec: Step 1 of the topology resolver keeps an edge
(a, b) of G in the filtered graph G' iff the ACL set accepts the edge
action. -/
def edgeKept (st : GroupStore) (acls : List NetworkACL) (a b : String) : Bool :=
  aclsAccept st acls (edgeAction a b)

/-! Topology resolver (pkg/util/meshutil/peers.go). -/

/-- Address prefixes circulate as their canonical string form (netip
parse / print round-trips on the canonical literals stored in the mesh). -/
abbrev Cidr := String

/-- The fields of a mesh node consulted by the resolver. PrivateAddrV4 /
PrivateAddrV6 validity is an Option. -/
structure MeshNode where
  id : String
  publicKey : String := ""
  primaryEndpoint : String := ""
  wireguardEndpoints : List String := []
  zoneAwarenessId : String := ""
  privateIpv4 : Option Cidr := none
  privateIpv6 : Option Cidr := none
deriving DecidableEq, Repr

/-- The peers graph: its vertex set. Edges live in the adjacency map. -/
structure PeersGraph where
  vertices : List MeshNode
deriving DecidableEq, Repr

/-- graph.Vertex: lookup by id; a missing vertex is the error case. -/
def vertex (g : PeersGraph) (id : String) : Option MeshNode :=
  g.vertices.find? fun n => n.id = id

/-- networking.AdjacencyMap: node id to the ids adjacent to it. Go's map
iteration order is modelled as the list order. -/
abbrev AdjacencyMap := List (String × List String)

/-- adjacencyMap[id]: the neighbor list of a node, empty when absent. -/
def adjTargets (m : AdjacencyMap) (id : String) : List String :=
  (m.lookup id).getD []

/-- A route advertisement: owning node and destination prefixes. -/
structure Route where
  name : String
  node : String
  destinationCidrs : List Cidr
deriving DecidableEq, Repr

/-- Modelled from the spec: GetRoutesByNode (not under src/) returns every
Route owned by the given node, and the resolver flattens their
destination prefixes. -/
def routeCidrs (routes : List Route) (nodeID : String) : List Cidr :=
  (routes.filter fun r => r.node = nodeID).flatMap Route.destinationCidrs

/-- Set-insert into the visited map. -/
def insertVisited (visited : List String) (id : String) : List String :=
  if visited.contains id then visited else id :: visited

/-- The merge loops of peers.go: append each element not already present. -/
def appendNew (acc : List Cidr) (xs : List Cidr) : List Cidr :=
  xs.foldl (fun acc x => if acc.contains x then acc else acc ++ [x]) acc

/-- The route-prefix loops of peers.go: append each prefix not already in
the accumulator and not one of the requesting node's own routes. -/
def appendRouteCidrs (acc : List Cidr) (thisRoutes : List Cidr) (xs : List Cidr) :
    List Cidr :=
  xs.foldl (fun acc x =>
    if ¬acc.contains x ∧ ¬thisRoutes.contains x then acc ++ [x] else acc) acc

/-- The body of the target loop in recurseEdges. A target is skipped when
it is the requesting peer, a direct adjacent of it, or already visited;
otherwise it is marked visited, and if its vertex resolves with a
non-empty public key its addresses and routes are collected and the
recursion (the recur argument) descends from it, threading the shared
visited set across iterations. A missing vertex aborts. -/
def recurseTargets (g : PeersGraph) (routes : List Route) (adj : AdjacencyMap)
    (thisPeer : String) (thisRoutes : List Cidr)
    (recur : MeshNode → List String → Option (List Cidr × List Cidr × List String)) :
    List String → List String → List Cidr → List Cidr →
      Option (List Cidr × List Cidr × List String)
  | [], visited, allowedIPs, allowedRoutes => some (allowedIPs, allowedRoutes, visited)
  | target :: rest, visited, allowedIPs, allowedRoutes =>
    if target = thisPeer ∨ (adjTargets adj thisPeer).contains target ∨
        visited.contains target then
      recurseTargets g routes adj thisPeer thisRoutes recur rest visited allowedIPs
        allowedRoutes
    else
      let visited := insertVisited visited target
      match vertex g target with
      | none => none
      | some targetNode =>
        if targetNode.publicKey = "" then
          recurseTargets g routes adj thisPeer thisRoutes recur rest visited allowedIPs
            allowedRoutes
        else
          let allowedIPs := allowedIPs ++ targetNode.privateIpv4.toList ++
            targetNode.privateIpv6.toList
          let allowedIPs := appendRouteCidrs allowedIPs thisRoutes
            (routeCidrs routes targetNode.id)
          match recur targetNode visited with
          | none => none
          | some (ips, ipRoutes, visited) =>
            recurseTargets g routes adj thisPeer thisRoutes recur rest visited
              (appendNew allowedIPs ips) (appendNew allowedRoutes ipRoutes)

/-- recurseEdges from peers.go, with fuel bounding the recursion depth
(the Go recursion terminates because the visited set grows; any fuel
larger than the vertex count is enough). Marks the current node visited
and walks its adjacency. -/
def recurseEdges (fuel : Nat) (g : PeersGraph) (routes : List Route)
    (adj : AdjacencyMap) (thisPeer : String) (thisRoutes : List Cidr)
    (node : MeshNode) (visited : List String) :
    Option (List Cidr × List Cidr × List String) :=
  match fuel with
  | 0 => none
  | Nat.succ fuel =>
    let visited := insertVisited visited node.id
    recurseTargets g routes adj thisPeer thisRoutes
      (fun n v => recurseEdges fuel g routes adj thisPeer thisRoutes n v)
      (adjTargets adj node.id) visited [] []

/-- recursePeers from peers.go: the direct adjacent's own addresses, its
route prefixes (minus the requesting node's own routes), then everything
the edge recursion reaches. -/
def recursePeers (fuel : Nat) (g : PeersGraph) (routes : List Route)
    (adj : AdjacencyMap) (thisPeer : String) (thisRoutes : List Cidr)
    (node : MeshNode) : Option (List Cidr × List Cidr) :=
  let allowedIPs := node.privateIpv4.toList ++ node.privateIpv6.toList
  let allowedIPs := appendRouteCidrs allowedIPs thisRoutes (routeCidrs routes node.id)
  match recurseEdges fuel g routes adj thisPeer thisRoutes node [] with
  | none => none
  | some (edgeIPs, edgeRoutes, _) =>
    some (appendNew allowedIPs edgeIPs, appendNew [] edgeRoutes)

/-- Modelled from the spec: FilterGraph (not under src/) keeps each edge
(a, b) of G iff the ACLs accept the edge action, and returns the
adjacency map of the filtered undirected graph; vertex order and edge
order model the unspecified map enumeration. -/
def filterGraph (g : PeersGraph) (st : GroupStore) (acls : List NetworkACL)
    (edges : List (String × String)) : AdjacencyMap :=
  let kept := edges.filter fun e => edgeKept st acls e.1 e.2
  g.vertices.map fun v =>
    (v.id, kept.filterMap fun e =>
      if e.1 = v.id then some e.2
      else if e.2 = v.id then some e.1
      else none)

/-- The peer descriptor assembled by WireGuardPeersFor (the fields the
resolver computes; plain copies of node metadata are represented by the
node id and public key). -/
structure WireGuardPeer where
  id : String
  publicKey : String
  primaryEndpoint : String
  allowedIps : List Cidr
  allowedRoutes : List Cidr
deriving DecidableEq, Repr

/-- The preferred wireguard endpoint selection of WireGuardPeersFor: the
first wireguard endpoint extending the node's primary endpoint, else the
first endpoint, else empty. -/
def preferredEndpoint (node : MeshNode) : String :=
  let pe := if node.primaryEndpoint ≠ "" then
      (node.wireguardEndpoints.find? fun e =>
        strHasPrefix e node.primaryEndpoint).getD ""
    else ""
  if pe = "" then node.wireguardEndpoints.headD "" else pe

/-- The body of the direct-adjacent loop of WireGuardPeersFor: resolve the
vertex (a missing vertex aborts), skip empty public keys, and append the
descriptor whose allowed sets recursePeers computes. -/
def wgPeerStep (fuel : Nat) (g : PeersGraph) (routes : List Route)
    (adj : AdjacencyMap) (peerID : String) (ourRoutes : List Cidr)
    (out : List WireGuardPeer) (adjacent : String) : Option (List WireGuardPeer) :=
  match vertex g adjacent with
  | none => none
  | some node =>
    if node.publicKey = "" then some out
    else
      match recursePeers fuel g routes adj peerID ourRoutes node with
      | none => none
      | some (ips, rts) =>
        some (out ++ [{ id := node.id, publicKey := node.publicKey,
                        primaryEndpoint := preferredEndpoint node,
                        allowedIps := ips, allowedRoutes := rts }])

/-- WireGuardPeersFor from peers.go: filter the graph through the ACLs,
then for each direct adjacent (in adjacency enumeration order) with a
non-empty public key build a descriptor whose allowed-IP set is produced
by recursePeers. No sorting is applied to the output. -/
def wireGuardPeersFor (fuel : Nat) (g : PeersGraph) (routes : List Route)
    (st : GroupStore) (acls : List NetworkACL) (edges : List (String × String))
    (peerID : String) : Option (List WireGuardPeer) :=
  let adj := filterGraph g st acls edges
  let ourRoutes := routeCidrs routes peerID
  (adjTargets adj peerID).foldlM (wgPeerStep fuel g routes adj peerID ourRoutes) []

/-! Concrete mesh states used by the scenario claims. -/

/-- A node of the star scenario (equality_test.go, simple star). -/
def starNode (id pk v4 v6 : String) : MeshNode :=
  { id := id, publicKey := pk, privateIpv4 := some v4, privateIpv6 := some v6 }

/-- The star graph of the simple-star test: router plus peer1..peer5. -/
def starGraph : PeersGraph :=
  ⟨[starNode "router" "pk-router" "172.16.0.1/32" "2001:db8::1/128",
    starNode "peer1" "pk-peer1" "172.16.0.2/32" "2001:db8::2/128",
    starNode "peer2" "pk-peer2" "172.16.0.3/32" "2001:db8::3/128",
    starNode "peer3" "pk-peer3" "172.16.0.4/32" "2001:db8::4/128",
    starNode "peer4" "pk-peer4" "172.16.0.5/32" "2001:db8::5/128",
    starNode "peer5" "pk-peer5" "172.16.0.6/32" "2001:db8::6/128"]⟩

/-- The star edges: router to each peer. -/
def starEdges : List (String × String) :=
  [("router", "peer1"), ("router", "peer2"), ("router", "peer3"),
   ("router", "peer4"), ("router", "peer5")]

/-- The default accept-all ACL of the scenarios: wildcard on every string
list (port 0 skips the port check). -/
def defaultAcceptACL : NetworkACL :=
  { name := "allow-all", priority := 0, action := ACLActionKind.accept,
    sourceNodes := ["*"], destinationNodes := ["*"], sourceCidrs := ["*"],
    destinationCidrs := ["*"], protocols := ["*"], ports := [] }

/-- A group store with no groups. -/
def emptyGroupStore : GroupStore :=
  ⟨fun _ => GroupLookup.notFound⟩

/-- Whether a direct adjacent survives the empty-public-key skip of the
descriptor loop: its vertex resolves and carries a non-empty key. -/
def hasVisibleKey (g : PeersGraph) (a : String) : Bool :=
  ((vertex g a).map fun n => !(n.publicKey == "")).getD false

/-- A three-node state whose adjacency map enumerates the direct
adjacents of the node self as peer2 before peer1, one of the orders a Go
map range may produce. -/
def orderGraph : PeersGraph :=
  ⟨[{ id := "self", publicKey := "pk-self", privateIpv4 := some "172.16.0.1/32" },
    { id := "peer1", publicKey := "pk-1", privateIpv4 := some "172.16.0.2/32" },
    { id := "peer2", publicKey := "pk-2", privateIpv4 := some "172.16.0.3/32" }]⟩

/-- The edges of orderGraph, enumerated with the peer2 edge first. -/
def orderEdges : List (String × String) :=
  [("self", "peer2"), ("self", "peer1")]

/-- The star scenario resolved for a given requesting node, projected to
descriptor ids and allowed-IP sets. -/
def starTopology (selfID : String) : Option (List (String × List Cidr)) :=
  (wireGuardPeersFor 10 starGraph [] emptyGroupStore [defaultAcceptACL] starEdges
    selfID).map (List.map fun p => (p.id, p.allowedIps))

/-- A traversal step recurseEdges can take from a to b: b is enumerated
adjacent to a, is not the requesting peer, is not one of the requesting
peer's direct adjacents, and resolves to a vertex with a non-empty public
key. A node with an empty public key can never be the target of a good
step, so nothing beyond it is good-reachable through it. -/
def goodStep (g : PeersGraph) (adj : AdjacencyMap) (thisPeer : String)
    (a b : String) : Prop :=
  b ∈ adjTargets adj a ∧ b ≠ thisPeer ∧ ¬(adjTargets adj thisPeer).contains b ∧
    ∃ n, vertex g b = some n ∧ n.publicKey ≠ ""

/-- Everything a node can contribute to an allowed-IP set: its private
addresses and its advertised route prefixes. -/
def contribOf (routes : List Route) (n : MeshNode) : List Cidr :=
  n.privateIpv4.toList ++ n.privateIpv6.toList ++ routeCidrs routes n.id

/-- A prefix the traversal from start may contribute: one contributed by
some node good-reachable from start. -/
def reachContrib (g : PeersGraph) (routes : List Route) (adj : AdjacencyMap)
    (thisPeer start : String) (p : Cidr) : Prop :=
  ∃ t n, Relation.TransGen (goodStep g adj thisPeer) start t ∧
    vertex g t = some n ∧ p ∈ contribOf routes n

/-- Membership in the duplicate-filtering merge comes from one side. -/
theorem mem_appendNew : ∀ (xs acc : List Cidr) (p : Cidr),
    p ∈ appendNew acc xs → p ∈ acc ∨ p ∈ xs := by
  intro xs
  induction xs with
  | nil => intro acc p h; exact Or.inl h
  | cons x xs ih =>
    intro acc p h
    simp only [appendNew, List.foldl_cons] at h
    rcases ih (if acc.contains x then acc else acc ++ [x]) p h with h1 | h1
    · by_cases hc : acc.contains x
      · rw [if_pos hc] at h1; exact Or.inl h1
      · rw [if_neg hc] at h1
        rcases List.mem_append.mp h1 with h2 | h2
        · exact Or.inl h2
        · have hpx : p = x := by simpa using h2
          subst hpx
          exact Or.inr (List.mem_cons_self p xs)
    · exact Or.inr (List.mem_cons_of_mem x h1)

/-- Membership in the route-prefix merge comes from one side. -/
theorem mem_appendRouteCidrs : ∀ (xs acc thisRoutes : List Cidr) (p : Cidr),
    p ∈ appendRouteCidrs acc thisRoutes xs → p ∈ acc ∨ p ∈ xs := by
  intro xs
  induction xs with
  | nil => intro acc tr p h; exact Or.inl h
  | cons x xs ih =>
    intro acc tr p h
    simp only [appendRouteCidrs, List.foldl_cons] at h
    rcases ih (if ¬acc.contains x ∧ ¬tr.contains x then acc ++ [x] else acc) tr p h
      with h1 | h1
    · by_cases hc : ¬acc.contains x ∧ ¬tr.contains x
      · rw [if_pos hc] at h1
        rcases List.mem_append.mp h1 with h2 | h2
        · exact Or.inl h2
        · have hpx : p = x := by simpa using h2
          subst hpx
          exact Or.inr (List.mem_cons_self p xs)
      · rw [if_neg hc] at h1; exact Or.inl h1
    · exact Or.inr (List.mem_cons_of_mem x h1)

/-- A vertex found under an id carries that id. -/
theorem vertex_id {g : PeersGraph} {a : String} {n : MeshNode}
    (h : vertex g a = some n) : n.id = a := by
  have := List.find?_some h
  simpa using this

/-- The descriptor loop of WireGuardPeersFor preserves the adjacency
enumeration order: a successful fold lists the accumulated ids followed by
exactly the targets that survive the empty-public-key skip, in order. -/
theorem wgPeerStep_fold_ids (fuel : Nat) (g : PeersGraph) (routes : List Route)
    (adj : AdjacencyMap) (peerID : String) (ourRoutes : List Cidr) :
    ∀ (targets : List String) (acc out : List WireGuardPeer),
      List.foldlM (wgPeerStep fuel g routes adj peerID ourRoutes) acc targets =
        some out →
      out.map WireGuardPeer.id =
        acc.map WireGuardPeer.id ++ targets.filter (hasVisibleKey g) := by
  intro targets
  induction targets with
  | nil =>
    intro acc out h
    simp only [List.foldlM_nil, pure, Option.some.injEq] at h
    subst h
    simp
  | cons t rest ih =>
    intro acc out h
    rw [List.foldlM_cons] at h
    cases hstep : wgPeerStep fuel g routes adj peerID ourRoutes acc t with
    | none => rw [hstep] at h; simp at h
    | some acc1 =>
      rw [hstep] at h
      simp only [Option.bind_eq_bind, Option.some_bind] at h
      unfold wgPeerStep at hstep
      cases hv : vertex g t with
      | none => rw [hv] at hstep; simp at hstep
      | some n =>
        rw [hv] at hstep
        dsimp only at hstep
        by_cases hk : n.publicKey = ""
        · rw [if_pos hk, Option.some.injEq] at hstep
          subst hstep
          have hfilter : hasVisibleKey g t = false := by
            simp [hasVisibleKey, hv, hk]
          rw [ih acc out h, List.filter_cons, hfilter]
          simp
        · rw [if_neg hk] at hstep
          cases hrp : recursePeers fuel g routes adj peerID ourRoutes n with
          | none => rw [hrp] at hstep; simp at hstep
          | some pr =>
            rw [hrp] at hstep
            dsimp only at hstep
            rw [Option.some.injEq] at hstep
            subst hstep
            have hfilter : hasVisibleKey g t = true := by
              simp [hasVisibleKey, hv, hk]
            rw [ih _ out h, List.filter_cons, hfilter]
            simp [vertex_id hv]

/-- Soundness of the target loop: provided the recursion argument only
produces prefixes of good-reachable nodes and an empty route list, the
loop only adds prefixes of nodes one good step from start or
good-reachable beyond them, and its route accumulator stays empty. -/
theorem recurseTargets_sound (g : PeersGraph) (routes : List Route)
    (adj : AdjacencyMap) (thisPeer : String) (thisRoutes : List Cidr)
    (recur : MeshNode → List String → Option (List Cidr × List Cidr × List String))
    (start : String)
    (hrec : ∀ n v ips rts vis, recur n v = some (ips, rts, vis) →
      (∀ p ∈ ips, reachContrib g routes adj thisPeer n.id p) ∧ rts = []) :
    ∀ (targets : List String), (∀ t ∈ targets, t ∈ adjTargets adj start) →
      ∀ (visited : List String) (accIps accRts ips rts : List Cidr)
        (vis : List String),
        (∀ p ∈ accIps, reachContrib g routes adj thisPeer start p) → accRts = [] →
        recurseTargets g routes adj thisPeer thisRoutes recur targets visited
          accIps accRts = some (ips, rts, vis) →
        (∀ p ∈ ips, reachContrib g routes adj thisPeer start p) ∧ rts = [] := by
  intro targets
  induction targets with
  | nil =>
    intro _ visited accIps accRts ips rts vis hacc hrts h
    rw [recurseTargets] at h
    obtain ⟨h1, h2, h3⟩ : accIps = ips ∧ accRts = rts ∧ visited = vis := by
      simpa using h
    subst h1; subst h2
    exact ⟨hacc, hrts.symm ▸ rfl⟩
  | cons t rest ih =>
    intro htar visited accIps accRts ips rts vis hacc hrts h
    rw [recurseTargets] at h
    have hrest : ∀ u ∈ rest, u ∈ adjTargets adj start := fun u hu =>
      htar u (List.mem_cons_of_mem t hu)
    by_cases hskip : t = thisPeer ∨ (adjTargets adj thisPeer).contains t ∨
        visited.contains t
    · rw [if_pos hskip] at h
      exact ih hrest visited accIps accRts ips rts vis hacc hrts h
    · rw [if_neg hskip] at h
      push_neg at hskip
      obtain ⟨hne, hnd, hnv⟩ := hskip
      cases hv : vertex g t with
      | none => rw [hv] at h; exact absurd h (by simp)
      | some tn =>
        rw [hv] at h
        dsimp only at h
        by_cases hk : tn.publicKey = ""
        · rw [if_pos hk] at h
          exact ih hrest _ accIps accRts ips rts vis hacc hrts h
        · rw [if_neg hk] at h
          cases hr : recur tn (insertVisited visited t) with
          | none => rw [hr] at h; exact absurd h (by simp)
          | some trip =>
            obtain ⟨ips0, rts0, vis0⟩ := trip
            rw [hr] at h
            dsimp only at h
            have htid : tn.id = t := vertex_id hv
            have hstep1 : goodStep g adj thisPeer start t :=
              ⟨htar t (List.mem_cons_self t rest), hne, by simpa using hnd,
               tn, hv, hk⟩
            have hrec1 := hrec tn _ ips0 rts0 vis0 hr
            refine ih hrest _ _ _ ips rts vis ?_ ?_ h
            · intro p hp
              rcases mem_appendNew _ _ _ hp with hp | hp
              · rcases mem_appendRouteCidrs _ _ _ _ hp with hp | hp
                · rcases List.mem_append.mp hp with hp | hp
                  · rcases List.mem_append.mp hp with hp | hp
                    · exact hacc p hp
                    · exact ⟨t, tn, Relation.TransGen.single hstep1, hv,
                        List.mem_append.mpr (Or.inl (List.mem_append.mpr (Or.inl hp)))⟩
                  · exact ⟨t, tn, Relation.TransGen.single hstep1, hv,
                      List.mem_append.mpr (Or.inl (List.mem_append.mpr (Or.inr hp)))⟩
                · exact ⟨t, tn, Relation.TransGen.single hstep1, hv,
                    List.mem_append.mpr (Or.inr hp)⟩
              · rcases hrec1.1 p hp with ⟨u, un, hchain, hvu, hmem⟩
                exact ⟨u, un, Relation.TransGen.head hstep1 (htid ▸ hchain), hvu, hmem⟩
            · rw [hrts, hrec1.2]
              rfl

/-- Soundness of recurseEdges: every prefix it returns is contributed by
a node good-reachable from the starting node, and the returned
allowed-route list is always empty (nothing in the source ever appends a
base element to it). -/
theorem recurseEdges_sound : ∀ (fuel : Nat) (g : PeersGraph)
    (routes : List Route) (adj : AdjacencyMap) (thisPeer : String)
    (thisRoutes : List Cidr) (node : MeshNode) (visited : List String)
    (ips rts : List Cidr) (vis : List String),
    recurseEdges fuel g routes adj thisPeer thisRoutes node visited =
      some (ips, rts, vis) →
    (∀ p ∈ ips, reachContrib g routes adj thisPeer node.id p) ∧ rts = [] := by
  intro fuel
  induction fuel with
  | zero =>
    intro g routes adj thisPeer thisRoutes node visited ips rts vis h
    exact absurd h (by simp [recurseEdges])
  | succ fuel ih =>
    intro g routes adj thisPeer thisRoutes node visited ips rts vis h
    rw [recurseEdges] at h
    exact recurseTargets_sound g routes adj thisPeer thisRoutes _ node.id
      (fun n v ips0 rts0 vis0 hr =>
        ih g routes adj thisPeer thisRoutes n v ips0 rts0 vis0 hr)
      (adjTargets adj node.id) (fun t ht => ht) _ [] [] ips rts vis
      (by simp) rfl h

/-- Accept is first-match: the result is determined by the first ACL in
list order whose Matches succeeds, and is false when none does. -/
theorem aclsAccept_first_match (st : GroupStore) (act : NetworkAction) :
    ∀ acls : List NetworkACL,
      aclsAccept st acls act =
        match acls.find? (fun x => (matchesACL st x act).1) with
        | some acl => decide (acl.action = ACLActionKind.accept)
        | none => false := by
  intro acls
  induction acls with
  | nil => rfl
  | cons acl rest ih =>
    by_cases hm : (matchesACL st acl act).1 = true
    · rw [aclsAccept, if_pos hm,
        @List.find?_cons_of_pos _ (fun x => (matchesACL st x act).1) acl rest hm]
    · rw [aclsAccept, if_neg hm,
        @List.find?_cons_of_neg _ (fun x => (matchesACL st x act).1) acl rest
          (by simpa using hm), ih]

/-- An empty source-nodes list fails a non-empty source-node action: the
expansion map of an empty list is empty and the membership check over the
empty list is false. -/
theorem srcNodesCheck_empty (st : GroupStore) (acl : NetworkACL)
    (action : NetworkAction) (h1 : acl.sourceNodes = [])
    (h2 : action.srcNode ≠ "") : (srcNodesCheck st acl action).1 = false := by
  unfold srcNodesCheck
  rw [if_pos h2, h1]
  rfl

/-- An empty destination-nodes list fails a non-empty destination-node
action. -/
theorem dstNodesCheck_empty (st : GroupStore) (acl : NetworkACL)
    (action : NetworkAction) (h1 : acl.destinationNodes = [])
    (h2 : action.dstNode ≠ "") : (dstNodesCheck st acl action).1 = false := by
  unfold dstNodesCheck
  rw [if_pos h2, h1]
  rfl

/-- The source-nodes block only ever rewrites the source-nodes list; all
other fields of the ACL survive it unchanged. -/
theorem srcNodesCheck_fields (st : GroupStore) (acl : NetworkACL)
    (action : NetworkAction) :
    (srcNodesCheck st acl action).2.destinationNodes = acl.destinationNodes ∧
    (srcNodesCheck st acl action).2.sourceCidrs = acl.sourceCidrs ∧
    (srcNodesCheck st acl action).2.destinationCidrs = acl.destinationCidrs ∧
    (srcNodesCheck st acl action).2.protocols = acl.protocols ∧
    (srcNodesCheck st acl action).2.ports = acl.ports := by
  unfold srcNodesCheck
  by_cases h : action.srcNode ≠ ""
  · rw [if_pos h]
    cases hbg : buildGroups st acl.sourceNodes with
    | none => simp
    | some groups => simp
  · rw [if_neg h]
    simp

/-- The destination-nodes block only ever rewrites the destination-nodes
list; all other fields of the ACL survive it unchanged. -/
theorem dstNodesCheck_fields (st : GroupStore) (acl : NetworkACL)
    (action : NetworkAction) :
    (dstNodesCheck st acl action).2.sourceNodes = acl.sourceNodes ∧
    (dstNodesCheck st acl action).2.sourceCidrs = acl.sourceCidrs ∧
    (dstNodesCheck st acl action).2.destinationCidrs = acl.destinationCidrs ∧
    (dstNodesCheck st acl action).2.protocols = acl.protocols ∧
    (dstNodesCheck st acl action).2.ports = acl.ports := by
  unfold dstNodesCheck
  by_cases h : action.dstNode ≠ ""
  · rw [if_pos h]
    cases hbg : buildGroups st acl.destinationNodes with
    | none => simp
    | some groups => simp
  · rw [if_neg h]
    simp

/-- C10 concrete state: node x sits behind the empty-public-key node e;
the only connection of the direct adjacent d to the rest of the graph
goes through e. -/
def blockGraph : PeersGraph :=
  ⟨[{ id := "self", publicKey := "pk-self", privateIpv4 := some "172.16.0.1/32" },
    { id := "d", publicKey := "pk-d", privateIpv4 := some "172.16.0.2/32" },
    { id := "e", publicKey := "", privateIpv4 := some "172.16.0.3/32" },
    { id := "x", publicKey := "pk-x", privateIpv4 := some "172.16.0.4/32" }]⟩

/-- The adjacency of blockGraph: self to d to e to x in a chain. -/
def blockAdj : AdjacencyMap :=
  [("self", ["d"]), ("d", ["self", "e"]), ("e", ["d", "x"]), ("x", ["e"])]

/-- The direct adjacent of self in blockGraph. -/
def blockNodeD : MeshNode :=
  { id := "d", publicKey := "pk-d", privateIpv4 := some "172.16.0.2/32" }

/-- A deny-all ACL at higher priority than defaultAcceptACL. -/
def denyAllACL : NetworkACL :=
  { name := "deny-all", priority := 100, action := ACLActionKind.deny,
    sourceNodes := ["*"], destinationNodes := ["*"], sourceCidrs := ["*"],
    destinationCidrs := ["*"], protocols := ["*"], ports := [] }

/-- A group store holding one group g whose sole subject is the node n1. -/
def groupStoreG : GroupStore :=
  ⟨fun name => if name = "g" then GroupLookup.found ⟨[⟨SubjectKind.node, "n1"⟩]⟩
    else GroupLookup.notFound⟩

/-- An ACL whose source-nodes list is a group reference. -/
def aclWithGroup : NetworkACL :=
  { name := "grp", priority := 0, action := ACLActionKind.accept,
    sourceNodes := ["group:g"], destinationNodes := ["*"], sourceCidrs := ["*"],
    destinationCidrs := ["*"], protocols := ["*"], ports := [] }

/-- An action from n1 to n2 with no cidr, protocol or port fields. -/
def actionN1 : NetworkAction :=
  { srcNode := "n1", dstNode := "n2", srcCidr := "", dstCidr := "",
    protocol := "", port := 0 }

/-- An ACL with wildcard node and cidr lists but an empty protocols list. -/
def aclNoProto : NetworkACL :=
  { name := "np", priority := 0, action := ACLActionKind.accept,
    sourceNodes := ["*"], destinationNodes := ["*"], sourceCidrs := ["*"],
    destinationCidrs := ["*"], protocols := [], ports := [] }

/-- An action naming a protocol, against which aclNoProto fails closed. -/
def actionProto : NetworkAction :=
  { srcNode := "n1", dstNode := "n2", srcCidr := "*", dstCidr := "*",
    protocol := "tcp", port := 0 }

/-! Snapshotter (snapshots package). -/

/-- A mesh_state row. -/
structure RMeshState where
  key : String
  value : String
deriving DecidableEq, Repr

/-- A nodes row, with the columns Snapshot dumps and Restore re-inserts
through RestoreNodeParams. -/
structure RNode where
  id : String
  publicKey : String
  raftPort : Int
  grpcPort : Int
  wireguardPort : Int
  publicEndpoint : String
  networkIpv6 : String
  createdAt : Int
  updatedAt : Int
deriving DecidableEq, Repr

/-- A leases row (RestoreLeaseParams columns). -/
structure RLease where
  nodeID : String
  ipv4 : String
  createdAt : Int
deriving DecidableEq, Repr

/-- A raft_acls row (RestoreRaftACLParams columns). -/
structure RRaftACL where
  name : String
  nodes : String
  action : Int
  createdAt : Int
  updatedAt : Int
deriving DecidableEq, Repr

/-- A node_edges row: source, destination, weight and attributes (the
columns GetNodeEdge / ListNodeEdges select). -/
structure RNodeEdge where
  srcNodeID : String
  dstNodeID : String
  weight : Int
  attrs : Option String
deriving DecidableEq, Repr

/-- The database tables the snapshotter reads and writes, each in
insertion order. -/
structure RaftDB where
  meshState : List RMeshState
  nodes : List RNode
  leases : List RLease
  raftACLs : List RRaftACL
  nodeEdges : List RNodeEdge
deriving DecidableEq, Repr

/-- The snapshot model: the five table dumps, in insertion order (the
gzip/JSON encoding round-trips and is not modelled). -/
structure SnapshotModel where
  state : List RMeshState
  nodes : List RNode
  leases : List RLease
  raftACLs : List RRaftACL
  nodeEdges : List RNodeEdge
deriving DecidableEq, Repr

/-- snapshotter.Snapshot: dump every table into the model. -/
def snapshotDB (db : RaftDB) : SnapshotModel :=
  { state := db.meshState, nodes := db.nodes, leases := db.leases,
    raftACLs := db.raftACLs, nodeEdges := db.nodeEdges }

/-- snapshotter.Restore: drop all tables, then insert each model row in
order via the Restore* queries inside one transaction. Mesh state, node,
lease and ACL rows are re-inserted from every dumped column, but
RestoreNodeEdgeParams is populated with only the source and destination
ids — the source carries a TODO noting Weight is not restored — so the
restored weight and attrs take their zero values. -/
def restoreDB (model : SnapshotModel) : RaftDB :=
  { meshState := model.state.map fun s => { key := s.key, value := s.value },
    nodes := model.nodes.map fun n =>
      { id := n.id, publicKey := n.publicKey, raftPort := n.raftPort,
        grpcPort := n.grpcPort, wireguardPort := n.wireguardPort,
        publicEndpoint := n.publicEndpoint, networkIpv6 := n.networkIpv6,
        createdAt := n.createdAt, updatedAt := n.updatedAt },
    leases := model.leases.map fun l =>
      { nodeID := l.nodeID, ipv4 := l.ipv4, createdAt := l.createdAt },
    raftACLs := model.raftACLs.map fun a =>
      { name := a.name, nodes := a.nodes, action := a.action,
        createdAt := a.createdAt, updatedAt := a.updatedAt },
    nodeEdges := model.nodeEdges.map fun e =>
      { srcNodeID := e.srcNodeID, dstNodeID := e.dstNodeID,
        weight := 0, attrs := none } }

/-- A valid state with one weighted, attributed edge between two nodes. -/
def weightedDB : RaftDB :=
  { meshState := [{ key := "IPv4Prefix", value := "172.16.0.0/12" }],
    nodes := [{ id := "n1", publicKey := "pk1", raftPort := 9443,
                grpcPort := 8443, wireguardPort := 51820,
                publicEndpoint := "1.2.3.4", networkIpv6 := "2001:db8::/64",
                createdAt := 1, updatedAt := 2 },
              { id := "n2", publicKey := "pk2", raftPort := 9443,
                grpcPort := 8443, wireguardPort := 51820,
                publicEndpoint := "5.6.7.8", networkIpv6 := "2001:db8:1::/64",
                createdAt := 3, updatedAt := 4 }],
    leases := [{ nodeID := "n1", ipv4 := "172.16.0.1/32", createdAt := 1 },
               { nodeID := "n2", ipv4 := "172.16.0.2/32", createdAt := 3 }],
    raftACLs := [{ name := "acl", nodes := "*", action := 1, createdAt := 1,
                   updatedAt := 1 }],
    nodeEdges := [{ srcNodeID := "n1", dstNodeID := "n2", weight := 2,
                    attrs := some "prefer-tcp" }] }

/-! Membership Leave handler (pkg/services/membership/leave.go). -/

/-- The externally observable calls Leave makes, in execution order. -/
inductive LeaveAction
| removeServer (id : String)
| deletePeer (id : String)
| barrier
deriving DecidableEq, Repr

/-- The request context: an optional leader-proxy proxied-for header and
an optional authenticated peer id. -/
structure LeaveCtx where
  proxiedFor : Option String
  authenticatedCaller : Option String
deriving DecidableEq, Repr

/-- The server state Leave consults: leadership, insecure mode, and the
ids in the current raft configuration. -/
structure LeaveServerState where
  isLeader : Bool
  insecure : Bool
  cfgServerIDs : List String
deriving DecidableEq, Repr

/-- The authentication check of Leave: in insecure mode anyone passes;
otherwise a proxied-for header must name the leaving node, else the
authenticated peer must, else the request is denied. -/
def leaveAuthOK (st : LeaveServerState) (ctx : LeaveCtx) (id : String) : Bool :=
  if st.insecure then true
  else
    match ctx.proxiedFor with
    | some pf => pf = id
    | none =>
      match ctx.authenticatedCaller with
      | some peer => peer = id
      | none => false

/-- Server.Leave from leave.go, as the list of calls it performs in
execution order. The barrier is registered with defer inside the
raft-member branch, so it runs when the handler returns — after the node
record deletion — and only for raft members. -/
def leave (st : LeaveServerState) (ctx : LeaveCtx) (id : String) :
    Except String (List LeaveAction) :=
  if id = "" then Except.error "id is required"
  else if st.isLeader = false then Except.error "not leader"
  else if leaveAuthOK st ctx id = false then Except.error "permission denied"
  else
    let raftMember := st.cfgServerIDs.contains id
    let deferred : List LeaveAction :=
      if raftMember then [LeaveAction.barrier] else []
    let actions : List LeaveAction :=
      if raftMember then [LeaveAction.removeServer id] else []
    let actions := actions ++ [LeaveAction.deletePeer id]
    Except.ok (actions ++ deferred)

/-- A leader in insecure mode whose configuration contains n1. -/
def leaveStateC : LeaveServerState :=
  { isLeader := true, insecure := true, cfgServerIDs := ["n1"] }

/-- An empty request context. -/
def leaveCtxC : LeaveCtx :=
  { proxiedFor := none, authenticatedCaller := none }

/-! Raft observer loop (store.observe). -/

/-- Raft server suffrage. -/
inductive Suffrage
| voter
| nonvoter
| staging
deriving DecidableEq, Repr

/-- A raft configuration entry. -/
structure RaftServer where
  id : String
  suffrage : Suffrage
deriving DecidableEq, Repr

/-- The observation events the loop dispatches on. -/
inductive Observation
| requestVote
| raftState
| peerObservation (peer : String) (removed : Bool)
| leaderObservation (leader : String)
| resumedHeartbeat (peer : String)
| failedHeartbeat (peer : String)
deriving DecidableEq, Repr

/-- The loop environment: leadership and the raft configuration read in
the failed-heartbeat branch. -/
structure ObserveEnv where
  isLeader : Bool
  servers : List RaftServer
deriving DecidableEq, Repr

/-- The observer state: the per-peer failed-heartbeat counters, and the
RemoveServer and peers.Delete calls issued so far, in order. -/
structure ObserveState where
  failedHeartbeats : List (String × Nat)
  removedServers : List String
  deletedPeers : List String
deriving DecidableEq, Repr

/-- The loop starts with an empty counter map and no calls issued. -/
def initialObserveState : ObserveState :=
  { failedHeartbeats := [], removedServers := [], deletedPeers := [] }

/-- Go map read with zero-value default. -/
def counterOf (s : ObserveState) (p : String) : Nat :=
  (s.failedHeartbeats.lookup p).getD 0

/-- Go map write. -/
def setCounter (m : List (String × Nat)) (p : String) (v : Nat) :
    List (String × Nat) :=
  if (m.lookup p).isSome then m.map fun e => if e.1 = p then (e.1, v) else e
  else m ++ [(p, v)]

/-- The body of the configuration scan in the failed-heartbeat branch:
for a server entry naming the failing non-voter peer, RemoveServer and
peers.Delete are called. -/
def removeNonvoter (p : String) (s : ObserveState) (srv : RaftServer) :
    ObserveState :=
  if srv.id = p ∧ srv.suffrage = Suffrage.nonvoter then
    { s with removedServers := s.removedServers ++ [p],
             deletedPeers := s.deletedPeers ++ [p] }
  else s

/-- One iteration of store.observe. RequestVote, RaftState, Peer and
Leader observations only log, refresh wireguard peers or emit plugin
events — none touches the counters or the configuration — and
ResumedHeartbeat only logs. FailedHeartbeat follows the source: when the
peer's counter already exceeds 30 the current leader scans the
configuration removing the peer where it appears as a non-voter, the
counter entry is deleted and the iteration ends; otherwise the counter
is incremented (set to 1 from its zero default). -/
def observeStep (env : ObserveEnv) (s : ObserveState) (ev : Observation) :
    ObserveState :=
  match ev with
  | Observation.failedHeartbeat p =>
    if counterOf s p > 30 then
      let s := if env.isLeader then env.servers.foldl (removeNonvoter p) s else s
      { s with failedHeartbeats := s.failedHeartbeats.filter fun e => ¬e.1 = p }
    else
      let c := counterOf s p
      { s with failedHeartbeats :=
          setCounter s.failedHeartbeats p (if c = 0 then 1 else c + 1) }
  | _ => s

/-- The observer loop over the list of received observations. -/
def runObserve (env : ObserveEnv) (events : List Observation) : ObserveState :=
  events.foldl (observeStep env) initialObserveState

/-- A leader whose configuration lists n1 as a non-voter. -/
def leaderEnv : ObserveEnv :=
  { isLeader := true, servers := [{ id := "n1", suffrage := Suffrage.nonvoter }] }

/-- The configuration scan never touches the counter map. -/
theorem removeNonvoter_fold_fhb (p : String) : ∀ (servers : List RaftServer)
    (s : ObserveState),
    (servers.foldl (removeNonvoter p) s).failedHeartbeats = s.failedHeartbeats := by
  intro servers
  induction servers with
  | nil => intro s; rfl
  | cons srv rest ih =>
    intro s
    rw [List.foldl_cons, ih]
    unfold removeNonvoter
    split <;> rfl

/-- Calls already issued survive the configuration scan. -/
theorem removeNonvoter_fold_mono (p : String) : ∀ (servers : List RaftServer)
    (s : ObserveState) (x : String),
    (x ∈ s.removedServers → x ∈ (servers.foldl (removeNonvoter p) s).removedServers) ∧
    (x ∈ s.deletedPeers → x ∈ (servers.foldl (removeNonvoter p) s).deletedPeers) := by
  intro servers
  induction servers with
  | nil => intro s x; exact ⟨id, id⟩
  | cons srv rest ih =>
    intro s x
    rw [List.foldl_cons]
    constructor
    · intro hx
      refine (ih _ x).1 ?_
      unfold removeNonvoter
      split
      · exact List.mem_append.mpr (Or.inl hx)
      · exact hx
    · intro hx
      refine (ih _ x).2 ?_
      unfold removeNonvoter
      split
      · exact List.mem_append.mpr (Or.inl hx)
      · exact hx

/-- When some configuration entry lists the failing peer as a non-voter,
the scan issues its RemoveServer and peers.Delete calls. -/
theorem removeNonvoter_fold_adds (p : String) : ∀ (servers : List RaftServer)
    (s : ObserveState),
    (∃ srv ∈ servers, srv.id = p ∧ srv.suffrage = Suffrage.nonvoter) →
    p ∈ (servers.foldl (removeNonvoter p) s).removedServers ∧
    p ∈ (servers.foldl (removeNonvoter p) s).deletedPeers := by
  intro servers
  induction servers with
  | nil =>
    intro s h
    rcases h with ⟨srv, hmem, _⟩
    exact absurd hmem (List.not_mem_nil srv)
  | cons srv rest ih =>
    intro s h
    rw [List.foldl_cons]
    rcases h with ⟨srv1, hmem, hid, hsuf⟩
    rcases List.mem_cons.mp hmem with heq | hmem1
    · subst heq
      have hstep : removeNonvoter p s srv1 =
          { s with removedServers := s.removedServers ++ [p],
                   deletedPeers := s.deletedPeers ++ [p] } := by
        unfold removeNonvoter
        rw [if_pos ⟨hid, hsuf⟩]
      rw [hstep]
      refine ⟨(removeNonvoter_fold_mono p rest _ p).1 ?_,
        (removeNonvoter_fold_mono p rest _ p).2 ?_⟩
      · exact List.mem_append.mpr (Or.inr (List.mem_singleton.mpr rfl))
      · exact List.mem_append.mpr (Or.inr (List.mem_singleton.mpr rfl))
    · exact ih _ ⟨srv1, hmem1, hid, hsuf⟩

/-- Conversely, a RemoveServer call present after the scan was either
already issued or names the failing peer through a non-voter entry. -/
theorem removeNonvoter_fold_src (q : String) : ∀ (servers : List RaftServer)
    (s : ObserveState) (x : String),
    x ∈ (servers.foldl (removeNonvoter q) s).removedServers →
    x ∈ s.removedServers ∨
      (x = q ∧ ∃ srv ∈ servers, srv.id = q ∧ srv.suffrage = Suffrage.nonvoter) := by
  intro servers
  induction servers with
  | nil => intro s x hx; exact Or.inl hx
  | cons srv rest ih =>
    intro s x hx
    rw [List.foldl_cons] at hx
    rcases ih _ x hx with hx1 | ⟨hxq, srv1, hmem, hprop⟩
    · unfold removeNonvoter at hx1
      by_cases hc : srv.id = q ∧ srv.suffrage = Suffrage.nonvoter
      · rw [if_pos hc] at hx1
        rcases List.mem_append.mp hx1 with hx2 | hx2
        · exact Or.inl hx2
        · exact Or.inr ⟨List.mem_singleton.mp hx2, srv,
            List.mem_cons_self srv rest, hc⟩
      · rw [if_neg hc] at hx1
        exact Or.inl hx1
    · exact Or.inr ⟨hxq, srv1, List.mem_cons_of_mem srv hmem, hprop⟩

/-- A failed heartbeat on a counter between 1 and 30 increments it. -/
theorem observeStep_fh_small (env : ObserveEnv) (p : String) (c : Nat)
    (rs ds : List String) (h1 : 1 ≤ c) (h2 : c ≤ 30) :
    observeStep env ⟨[(p, c)], rs, ds⟩ (Observation.failedHeartbeat p) =
      ⟨[(p, c + 1)], rs, ds⟩ := by
  have hc : counterOf ⟨[(p, c)], rs, ds⟩ p = c := by
    simp [counterOf, List.lookup]
  unfold observeStep
  dsimp only
  rw [hc, if_neg (by omega), if_neg (by omega)]
  simp [setCounter, List.lookup]

/-- The first failed heartbeat of a peer sets its counter to 1. -/
theorem observeStep_fh_first (env : ObserveEnv) (p : String)
    (rs ds : List String) :
    observeStep env ⟨[], rs, ds⟩ (Observation.failedHeartbeat p) =
      ⟨[(p, 1)], rs, ds⟩ := by
  have hc : counterOf ⟨[], rs, ds⟩ p = 0 := by simp [counterOf, List.lookup]
  unfold observeStep
  dsimp only
  rw [hc, if_neg (by omega), if_pos rfl]
  simp [setCounter, List.lookup]

/-- Counter progress: from a counter of c at least 1, k further failed
heartbeats with c + k at most 31 raise the counter to c + k without
issuing any call. -/
theorem foldl_fh_progress (env : ObserveEnv) (p : String) : ∀ (k c : Nat)
    (rs ds : List String), 1 ≤ c → c + k ≤ 31 →
    List.foldl (observeStep env) ⟨[(p, c)], rs, ds⟩
      (List.replicate k (Observation.failedHeartbeat p)) = ⟨[(p, c + k)], rs, ds⟩ := by
  intro k
  induction k with
  | zero => intro c rs ds h1 h2; simp
  | succ k ih =>
    intro c rs ds h1 h2
    rw [List.replicate_succ, List.foldl_cons,
      observeStep_fh_small env p c rs ds h1 (by omega), ih (c + 1) rs ds
        (by omega) (by omega)]
    have harith : c + 1 + k = c + (k + 1) := by omega
    rw [harith]

/-- The observer run on k consecutive failed heartbeats, 1 ≤ k ≤ 31:
counter k, no calls issued. -/
theorem runObserve_replicate_fh (env : ObserveEnv) (p : String) (k : Nat)
    (h1 : 1 ≤ k) (h2 : k ≤ 31) :
    runObserve env (List.replicate k (Observation.failedHeartbeat p)) =
      ⟨[(p, k)], [], []⟩ := by
  obtain ⟨k1, rfl⟩ : ∃ k1, k = k1 + 1 := ⟨k - 1, by omega⟩
  unfold runObserve initialObserveState
  rw [List.replicate_succ, List.foldl_cons, observeStep_fh_first env p [] [],
    foldl_fh_progress env p k1 1 [] [] (by omega) (by omega)]
  have harith : 1 + k1 = k1 + 1 := by omega
  rw [harith]

/-- A step of the loop cannot remove a peer that no configuration entry
lists as a non-voter. -/
theorem observeStep_no_voter_removal (env : ObserveEnv) (p : String)
    (hv : ∀ srv ∈ env.servers, srv.id = p → srv.suffrage ≠ Suffrage.nonvoter) :
    ∀ (s : ObserveState) (ev : Observation), p ∉ s.removedServers →
      p ∉ (observeStep env s ev).removedServers := by
  intro s ev hns
  cases ev with
  | failedHeartbeat q =>
    unfold observeStep
    dsimp only
    by_cases hc : counterOf s q > 30
    · rw [if_pos hc]
      dsimp only
      by_cases hl : env.isLeader
      · rw [if_pos hl]
        intro hmem
        rcases removeNonvoter_fold_src q env.servers s p hmem with hx | ⟨hpq, srv,
          hmem1, hid, hsuf⟩
        · exact hns hx
        · exact hv srv hmem1 (hpq ▸ hid) hsuf
      · rw [if_neg hl]
        exact hns
    · rw [if_neg hc]
      exact hns
  | requestVote => exact hns
  | raftState => exact hns
  | peerObservation q r => exact hns
  | leaderObservation q => exact hns
  | resumedHeartbeat q => exact hns

end Webmesh

namespace WebmeshClaims

open Webmesh

/-- C1 counterexample: in the star scenario, topology(peer1) yields the
single descriptor for the router, but its allowed-IPs list holds the ten
prefixes of router, peer2, peer3, peer4 and peer5 — not the eleven the
claim asserts. -/
theorem c1_star_counterexample :
    (starTopology "peer1").map (List.map fun e => (e.1, e.2.length)) =
      some [("router", 10)] ∧
    (starTopology "peer1").map (List.map fun e => (e.1, e.2.length)) ≠
      some [("router", 11)] := by
  constructor
  · rfl
  · decide

/-- C1 as amended: in the star scenario, topology(router) returns exactly
five descriptors, one per peer, each carrying exactly that peer's /32 and
/128 addresses, and topology(peer1) returns exactly one descriptor, for
the router, whose allowed-IPs are the addresses of router, peer2, peer3,
peer4 and peer5 — ten prefixes (not eleven). -/
theorem c1_star_topology :
    starTopology "router" =
      some [("peer1", ["172.16.0.2/32", "2001:db8::2/128"]),
            ("peer2", ["172.16.0.3/32", "2001:db8::3/128"]),
            ("peer3", ["172.16.0.4/32", "2001:db8::4/128"]),
            ("peer4", ["172.16.0.5/32", "2001:db8::5/128"]),
            ("peer5", ["172.16.0.6/32", "2001:db8::6/128"])] ∧
    starTopology "peer1" =
      some [("router",
        ["172.16.0.1/32", "2001:db8::1/128", "172.16.0.3/32", "2001:db8::3/128",
         "172.16.0.4/32", "2001:db8::4/128", "172.16.0.5/32", "2001:db8::5/128",
         "172.16.0.6/32", "2001:db8::6/128"])] ∧
    (starTopology "peer1").map (List.map fun e => e.2.length) = some [10] := by
  exact ⟨rfl, rfl, rfl⟩

/-- C6 counterexample: WireGuardPeersFor applies no sort, so with the
adjacency map enumerating peer2 before peer1 (one of the orders a Go map
range may produce) the returned descriptors are not sorted by node id. -/
theorem c6_unsorted_counterexample :
    (wireGuardPeersFor 10 orderGraph [] emptyGroupStore [defaultAcceptACL]
        orderEdges "self").map (List.map WireGuardPeer.id) =
      some ["peer2", "peer1"] ∧
    ¬ List.Pairwise (fun a b : String => a ≤ b) ["peer2", "peer1"] := by
  refine ⟨rfl, ?_⟩
  have h1 : "peer1" < "peer2" := by
    rw [String.lt_iff_toList_lt]
    decide
  intro hp
  rcases List.pairwise_cons.mp hp with ⟨hle, _⟩
  exact not_le.mpr h1 (hle "peer1" (by simp))

/-- C6 as amended: the descriptor list of WireGuardPeersFor follows the
adjacency-map enumeration order (restricted to adjacents with a
non-empty public key); no sorting by node id is applied, so the output
order is only as deterministic as the map enumeration feeding it. -/
theorem c6_order_follows_adjacency (fuel : Nat) (g : PeersGraph)
    (routes : List Route) (st : GroupStore) (acls : List NetworkACL)
    (edges : List (String × String)) (peerID : String)
    (out : List WireGuardPeer)
    (h : wireGuardPeersFor fuel g routes st acls edges peerID = some out) :
    out.map WireGuardPeer.id =
      (adjTargets (filterGraph g st acls edges) peerID).filter (hasVisibleKey g) := by
  unfold wireGuardPeersFor at h
  simpa using wgPeerStep_fold_ids fuel g routes (filterGraph g st acls edges) peerID
    (routeCidrs routes peerID) (adjTargets (filterGraph g st acls edges) peerID)
    [] out h

/-- Witness for c6_order_follows_adjacency at the orderGraph state. -/
theorem c6_order_follows_adjacency_witness :
    List.map WireGuardPeer.id
        [{ id := "peer2", publicKey := "pk-2", primaryEndpoint := "",
           allowedIps := ["172.16.0.3/32"], allowedRoutes := [] },
         { id := "peer1", publicKey := "pk-1", primaryEndpoint := "",
           allowedIps := ["172.16.0.2/32"], allowedRoutes := [] }] =
      (adjTargets (filterGraph orderGraph emptyGroupStore [defaultAcceptACL]
        orderEdges) "self").filter (hasVisibleKey orderGraph) :=
  c6_order_follows_adjacency 10 orderGraph [] emptyGroupStore [defaultAcceptACL]
    orderEdges "self" _ (by rfl)

/-- C10: an empty-public-key node blocks the traversal — it is marked
visited before the key check and the recursion never descends from it,
so every prefix in a peer's allowed-IP set comes either from the direct
adjacent itself or from a node good-reachable from it, where every hop of
a good chain has a non-empty public key; a node whose every path from
the adjacent crosses an empty-key node is not good-reachable and so
contributes nothing, and the allowed-route list is always empty. -/
theorem c10_empty_key_blocks (fuel : Nat) (g : PeersGraph) (routes : List Route)
    (adj : AdjacencyMap) (thisPeer : String) (thisRoutes : List Cidr)
    (node : MeshNode) (ips rts : List Cidr)
    (h : recursePeers fuel g routes adj thisPeer thisRoutes node =
      some (ips, rts)) :
    (∀ p ∈ ips, p ∈ contribOf routes node ∨
      reachContrib g routes adj thisPeer node.id p) ∧ rts = [] := by
  unfold recursePeers at h
  cases hre : recurseEdges fuel g routes adj thisPeer thisRoutes node [] with
  | none => rw [hre] at h; exact absurd h (by simp)
  | some trip =>
    obtain ⟨eips, erts, vis⟩ := trip
    rw [hre] at h
    dsimp only at h
    have hs := recurseEdges_sound fuel g routes adj thisPeer thisRoutes node []
      eips erts vis hre
    obtain ⟨hips, hrts⟩ : appendNew (appendRouteCidrs
        (node.privateIpv4.toList ++ node.privateIpv6.toList) thisRoutes
        (routeCidrs routes node.id)) eips = ips ∧ appendNew [] erts = rts := by
      simpa using h
    subst hips; subst hrts
    constructor
    · intro p hp
      rcases mem_appendNew _ _ _ hp with hp | hp
      · rcases mem_appendRouteCidrs _ _ _ _ hp with hp | hp
        · exact Or.inl (by
            unfold contribOf
            rcases List.mem_append.mp hp with hp | hp
            · exact List.mem_append.mpr (Or.inl (List.mem_append.mpr (Or.inl hp)))
            · exact List.mem_append.mpr (Or.inl (List.mem_append.mpr (Or.inr hp))))
        · exact Or.inl (by
            unfold contribOf
            exact List.mem_append.mpr (Or.inr hp))
      · exact Or.inr (hs.1 p hp)
    · rw [hs.2]
      rfl

/-- Witness for c10_empty_key_blocks on blockGraph: resolving the direct
adjacent d of self yields only d's own address — x, which is reachable
from d only through the empty-key node e, contributes nothing. -/
theorem c10_empty_key_blocks_witness :
    (∀ p ∈ (["172.16.0.2/32"] : List Cidr), p ∈ contribOf [] blockNodeD ∨
      reachContrib blockGraph [] blockAdj "self" blockNodeD.id p) ∧
    ([] : List Cidr) = [] :=
  c10_empty_key_blocks 10 blockGraph [] blockAdj "self" [] blockNodeD
    ["172.16.0.2/32"] [] (by rfl)

/-- C2: for every ACL set sorted in descending priority and every edge
action src=a, dst=b, src_cidr=*, dst_cidr=*, proto=*, port=0, the edge is
kept in the filtered graph iff the first ACL in that order matching the
action has action accept; when no ACL matches — the empty set included —
the edge is excluded (default deny). -/
theorem c2_first_match_default_deny (st : GroupStore) (acls : List NetworkACL)
    (a b : String) (_hs : SortedByPriorityDesc acls) :
    (edgeKept st acls a b = true ↔
      ∃ acl, (acls.find? fun x => (matchesACL st x (edgeAction a b)).1) = some acl ∧
        acl.action = ACLActionKind.accept) ∧
    ((acls.find? fun x => (matchesACL st x (edgeAction a b)).1) = none →
      edgeKept st acls a b = false) := by
  unfold edgeKept
  rw [aclsAccept_first_match]
  constructor
  · cases hf : acls.find? fun x => (matchesACL st x (edgeAction a b)).1 with
    | none => simp
    | some acl => simp
  · intro hf
    rw [hf]

/-- Witness for c2_first_match_default_deny: a deny-all ACL above the
accept-all ACL, evaluated on the edge (n1, n2). -/
theorem c2_first_match_default_deny_witness :
    SortedByPriorityDesc [denyAllACL, defaultAcceptACL] ∧
    ((edgeKept emptyGroupStore [denyAllACL, defaultAcceptACL] "n1" "n2" = true ↔
      ∃ acl, ([denyAllACL, defaultAcceptACL].find? fun x =>
        (matchesACL emptyGroupStore x (edgeAction "n1" "n2")).1) = some acl ∧
        acl.action = ACLActionKind.accept) ∧
    (([denyAllACL, defaultAcceptACL].find? fun x =>
        (matchesACL emptyGroupStore x (edgeAction "n1" "n2")).1) = none →
      edgeKept emptyGroupStore [denyAllACL, defaultAcceptACL] "n1" "n2" = false)) :=
  ⟨by unfold SortedByPriorityDesc; decide,
   c2_first_match_default_deny emptyGroupStore [denyAllACL, defaultAcceptACL]
     "n1" "n2" (by unfold SortedByPriorityDesc; decide)⟩

/-- C7: every guard in Matches tests len(list) >= 0, which always holds,
so an empty constraint list fails closed: for each of the six constraint
fields, an empty list combined with a non-empty (non-zero for the port)
action field makes Matches return false. -/
theorem c7_empty_list_fails_closed (st : GroupStore) (acl : NetworkACL)
    (action : NetworkAction)
    (h : acl.sourceNodes = [] ∧ action.srcNode ≠ "" ∨
         acl.destinationNodes = [] ∧ action.dstNode ≠ "" ∨
         acl.sourceCidrs = [] ∧ action.srcCidr ≠ "" ∨
         acl.destinationCidrs = [] ∧ action.dstCidr ≠ "" ∨
         acl.protocols = [] ∧ action.protocol ≠ "" ∨
         acl.ports = [] ∧ action.port ≠ 0) :
    (matchesACL st acl action).1 = false := by
  unfold matchesACL
  rcases hsrc : srcNodesCheck st acl action with ⟨b1, acl1⟩
  have hf1 := srcNodesCheck_fields st acl action
  rw [hsrc] at hf1
  cases b1 with
  | false => rfl
  | true =>
    dsimp only
    rcases hdst : dstNodesCheck st acl1 action with ⟨b2, acl2⟩
    have hf2 := dstNodesCheck_fields st acl1 action
    rw [hdst] at hf2
    cases b2 with
    | false => rfl
    | true =>
      dsimp only
      rcases h with ⟨he, hne⟩ | ⟨he, hne⟩ | ⟨he, hne⟩ | ⟨he, hne⟩ | ⟨he, hne⟩ |
        ⟨he, hne⟩
      · have hb := srcNodesCheck_empty st acl action he hne
        rw [hsrc] at hb
        exact absurd hb (by simp)
      · have hd : acl1.destinationNodes = [] := by rw [hf1.1, he]
        have hb := dstNodesCheck_empty st acl1 action hd hne
        rw [hdst] at hb
        exact absurd hb (by simp)
      · have hl : acl2.sourceCidrs = [] := by rw [hf2.2.1, hf1.2.1, he]
        rw [if_pos ⟨hne, by rw [hl]; simp [containsOrWildcardMatch]⟩]
      · have hl : acl2.destinationCidrs = [] := by rw [hf2.2.2.1, hf1.2.2.1, he]
        by_cases hc1 : action.srcCidr ≠ "" ∧
            ¬containsOrWildcardMatch acl2.sourceCidrs action.srcCidr
        · rw [if_pos hc1]
        · rw [if_neg hc1,
            if_pos ⟨hne, by rw [hl]; simp [containsOrWildcardMatch]⟩]
      · have hl : acl2.protocols = [] := by rw [hf2.2.2.2.1, hf1.2.2.2.1, he]
        by_cases hc1 : action.srcCidr ≠ "" ∧
            ¬containsOrWildcardMatch acl2.sourceCidrs action.srcCidr
        · rw [if_pos hc1]
        · rw [if_neg hc1]
          by_cases hc2 : action.dstCidr ≠ "" ∧
              ¬containsOrWildcardMatch acl2.destinationCidrs action.dstCidr
          · rw [if_pos hc2]
          · rw [if_neg hc2,
              if_pos ⟨hne, by rw [hl]; simp [containsOrWildcardMatch]⟩]
      · have hl : acl2.ports = [] := by rw [hf2.2.2.2.2, hf1.2.2.2.2, he]
        by_cases hc1 : action.srcCidr ≠ "" ∧
            ¬containsOrWildcardMatch acl2.sourceCidrs action.srcCidr
        · rw [if_pos hc1]
        · rw [if_neg hc1]
          by_cases hc2 : action.dstCidr ≠ "" ∧
              ¬containsOrWildcardMatch acl2.destinationCidrs action.dstCidr
          · rw [if_pos hc2]
          · rw [if_neg hc2]
            by_cases hc3 : action.protocol ≠ "" ∧
                ¬containsOrWildcardMatch acl2.protocols action.protocol
            · rw [if_pos hc3]
            · rw [if_neg hc3,
                if_pos ⟨hne, by rw [hl]; simp [containsPort]⟩]

/-- Witness for c7_empty_list_fails_closed: aclNoProto has an empty
protocols list and actionProto names the protocol tcp. -/
theorem c7_empty_list_fails_closed_witness :
    (aclNoProto.protocols = [] ∧ actionProto.protocol ≠ "") ∧
    (matchesACL emptyGroupStore aclNoProto actionProto).1 = false :=
  ⟨⟨rfl, by decide⟩,
   c7_empty_list_fails_closed emptyGroupStore aclNoProto actionProto
     (Or.inr (Or.inr (Or.inr (Or.inr (Or.inl ⟨rfl, by decide⟩)))))⟩

/-- C8 counterexample: evaluating aclWithGroup (source-nodes list
group:g) against an action from n1 leaves the stored ACL changed — the
group reference has been replaced in place by the group's member n1. -/
theorem c8_mutation_counterexample :
    (matchesACL groupStoreG aclWithGroup actionN1).2.sourceNodes = ["n1"] ∧
    (matchesACL groupStoreG aclWithGroup actionN1).2.sourceNodes ≠
      aclWithGroup.sourceNodes := by
  refine ⟨rfl, ?_⟩
  decide

/-- C8 as amended: Matches does not expand group references on a
temporary copy; whenever the action carries a non-empty source node and
group expansion succeeds, the ACL as stored after the call has its
source-nodes list rewritten to the expanded list, with every resolved
group:X reference replaced in place by that group's node members. -/
theorem c8_matches_mutates (st : GroupStore) (acl : NetworkACL)
    (action : NetworkAction) (groups : List (String × List String))
    (h1 : action.srcNode ≠ "")
    (h2 : buildGroups st acl.sourceNodes = some groups) :
    (matchesACL st acl action).2.sourceNodes =
      applyGroups groups acl.sourceNodes := by
  unfold matchesACL
  have hsrc : srcNodesCheck st acl action =
      (containsOrWildcardMatch (applyGroups groups acl.sourceNodes) action.srcNode,
       { acl with sourceNodes := applyGroups groups acl.sourceNodes }) := by
    unfold srcNodesCheck
    rw [if_pos h1, h2]
  rw [hsrc]
  cases hcw : containsOrWildcardMatch (applyGroups groups acl.sourceNodes)
      action.srcNode with
  | false => rfl
  | true =>
    dsimp only
    rcases hdst : dstNodesCheck st
        { acl with sourceNodes := applyGroups groups acl.sourceNodes } action
      with ⟨b2, acl2⟩
    have hpres := (dstNodesCheck_fields st
      { acl with sourceNodes := applyGroups groups acl.sourceNodes } action).1
    rw [hdst] at hpres
    have hgoal : acl2.sourceNodes = applyGroups groups acl.sourceNodes := by
      rw [hpres]
    cases b2 with
    | false => exact hgoal
    | true =>
      dsimp only
      split
      · exact hgoal
      · split
        · exact hgoal
        · split
          · exact hgoal
          · split
            · exact hgoal
            · exact hgoal

/-- Witness for c8_matches_mutates at the concrete group store. -/
theorem c8_matches_mutates_witness :
    (matchesACL groupStoreG aclWithGroup actionN1).2.sourceNodes =
      applyGroups [("g", ["n1"])] aclWithGroup.sourceNodes :=
  c8_matches_mutates groupStoreG aclWithGroup actionN1 [("g", ["n1"])]
    (by decide) (by rfl)

/-- C3: the snapshot round-trip is NOT the identity — on a valid state
with one weighted edge, restore(snapshot(state)) differs from state: the
edge comes back with zero weight and no attributes (the source's own TODO
admits Weight is not restored), while every other table round-trips. -/
theorem c3_roundtrip_loses_edge_weight :
    restoreDB (snapshotDB weightedDB) ≠ weightedDB ∧
    (restoreDB (snapshotDB weightedDB)).nodeEdges.map RNodeEdge.weight = [0] ∧
    weightedDB.nodeEdges.map RNodeEdge.weight = [2] ∧
    (restoreDB (snapshotDB weightedDB)).meshState = weightedDB.meshState ∧
    (restoreDB (snapshotDB weightedDB)).nodes = weightedDB.nodes ∧
    (restoreDB (snapshotDB weightedDB)).leases = weightedDB.leases ∧
    (restoreDB (snapshotDB weightedDB)).raftACLs = weightedDB.raftACLs := by
  refine ⟨?_, rfl, rfl, rfl, rfl, rfl, rfl⟩
  decide

/-- C9 counterexample: for a raft-member leave request the handler's
barrier is deferred, so the actual order is remove-server, delete-node,
barrier — not remove-server, barrier, delete-node as claimed. -/
theorem c9_barrier_last_counterexample :
    leave leaveStateC leaveCtxC "n1" =
      Except.ok [LeaveAction.removeServer "n1", LeaveAction.deletePeer "n1",
        LeaveAction.barrier] ∧
    leave leaveStateC leaveCtxC "n1" ≠
      Except.ok [LeaveAction.removeServer "n1", LeaveAction.barrier,
        LeaveAction.deletePeer "n1"] := by
  refine ⟨rfl, ?_⟩
  intro hcontra
  injection hcontra with h2
  exact absurd h2 (by decide)

/-- C9 as amended: on the leader, for an authenticated leave request
naming a node in the raft configuration, Leave removes the raft server,
then deletes the node record, and the deferred cluster barrier runs last
as the handler returns; for a node outside the configuration only the
node record deletion occurs. -/
theorem c9_leave_order (st : LeaveServerState) (ctx : LeaveCtx) (id : String)
    (hid : id ≠ "") (hl : st.isLeader = true)
    (ha : leaveAuthOK st ctx id = true) :
    (st.cfgServerIDs.contains id = true →
      leave st ctx id = Except.ok [LeaveAction.removeServer id,
        LeaveAction.deletePeer id, LeaveAction.barrier]) ∧
    (st.cfgServerIDs.contains id = false →
      leave st ctx id = Except.ok [LeaveAction.deletePeer id]) := by
  unfold leave
  rw [if_neg hid, if_neg (by simp [hl]), if_neg (by simp [ha])]
  constructor
  · intro hm
    rw [hm]
    simp
  · intro hm
    rw [hm]
    simp

/-- Witness for c9_leave_order at the concrete leader state. -/
theorem c9_leave_order_witness :
    (leaveStateC.cfgServerIDs.contains "n1" = true →
      leave leaveStateC leaveCtxC "n1" = Except.ok
        [LeaveAction.removeServer "n1", LeaveAction.deletePeer "n1",
         LeaveAction.barrier]) ∧
    (leaveStateC.cfgServerIDs.contains "n1" = false →
      leave leaveStateC leaveCtxC "n1" = Except.ok
        [LeaveAction.deletePeer "n1"]) :=
  c9_leave_order leaveStateC leaveCtxC "n1" (by decide) rfl rfl

/-- C4 counterexample: after one failed heartbeat for n1, processing a
ResumedHeartbeat observation for n1 leaves its counter at 1 — it is not
reset to zero, since that case of the loop only logs. -/
theorem c4_no_reset_counterexample :
    counterOf (runObserve leaderEnv
      [Observation.failedHeartbeat "n1", Observation.resumedHeartbeat "n1"])
      "n1" = 1 ∧
    counterOf (runObserve leaderEnv
      [Observation.failedHeartbeat "n1", Observation.resumedHeartbeat "n1"])
      "n1" ≠ 0 := by
  refine ⟨rfl, ?_⟩
  decide

/-- C4 as amended: the ResumedHeartbeatObservation case of the observer
loop only logs — it leaves the state, the per-peer failed-heartbeat
counters included, entirely unchanged; counters therefore accumulate
missed heartbeats across successful ones and are only cleared by the
over-threshold branch of the failed-heartbeat case. -/
theorem c4_resumed_heartbeat_noop (env : ObserveEnv) (s : ObserveState)
    (p : String) :
    observeStep env s (Observation.resumedHeartbeat p) = s := rfl

set_option maxRecDepth 4000 in
/-- C5 counterexample: on the leader with n1 a configured non-voter, 30
consecutive failed heartbeats remove nothing (the source checks the
counter before incrementing, with a strict > 30 comparison); the removal
happens on the 32nd. -/
theorem c5_not_removed_at_30_counterexample :
    (runObserve leaderEnv
      (List.replicate 30 (Observation.failedHeartbeat "n1"))).removedServers = [] ∧
    (runObserve leaderEnv
      (List.replicate 30 (Observation.failedHeartbeat "n1"))).deletedPeers = [] ∧
    (runObserve leaderEnv
      (List.replicate 32 (Observation.failedHeartbeat "n1"))).removedServers =
      ["n1"] := by
  exact ⟨rfl, rfl, rfl⟩

/-- C5 as amended: on the current leader with the peer configured as a
non-voter, the first 31 consecutive failed heartbeats only raise the
counter (to its observation count) with no removal; the 32nd failed
heartbeat — the first whose preceding counter exceeds 30 — removes the
peer from the configuration, deletes its node record, and clears its
counter. A peer that no configuration entry lists as a non-voter is never
removed by this mechanism, whatever the observation sequence. -/
theorem c5_nonvoter_removed_on_32nd (env : ObserveEnv) (p : String)
    (hl : env.isLeader = true)
    (hex : ∃ srv ∈ env.servers, srv.id = p ∧ srv.suffrage = Suffrage.nonvoter) :
    (∀ k, k ≤ 31 →
      (runObserve env
        (List.replicate k (Observation.failedHeartbeat p))).removedServers = [] ∧
      (runObserve env
        (List.replicate k (Observation.failedHeartbeat p))).deletedPeers = [] ∧
      counterOf (runObserve env
        (List.replicate k (Observation.failedHeartbeat p))) p = k) ∧
    (p ∈ (runObserve env
        (List.replicate 32 (Observation.failedHeartbeat p))).removedServers ∧
     p ∈ (runObserve env
        (List.replicate 32 (Observation.failedHeartbeat p))).deletedPeers ∧
     (runObserve env
        (List.replicate 32 (Observation.failedHeartbeat p))).failedHeartbeats.lookup
        p = none) ∧
    (∀ (env2 : ObserveEnv) (events : List Observation),
      (∀ srv ∈ env2.servers, srv.id = p → srv.suffrage ≠ Suffrage.nonvoter) →
      p ∉ (runObserve env2 events).removedServers) := by
  refine ⟨?_, ?_, ?_⟩
  · intro k hk
    by_cases hk0 : k = 0
    · subst hk0
      refine ⟨rfl, rfl, ?_⟩
      simp [runObserve, initialObserveState, counterOf, List.lookup]
    · rw [runObserve_replicate_fh env p k (by omega) hk]
      refine ⟨rfl, rfl, ?_⟩
      simp [counterOf, List.lookup]
  · have h31 := runObserve_replicate_fh env p 31 (by omega) (by omega)
    have hsplit : runObserve env
        (List.replicate 32 (Observation.failedHeartbeat p)) =
        observeStep env (runObserve env
          (List.replicate 31 (Observation.failedHeartbeat p)))
          (Observation.failedHeartbeat p) := by
      show runObserve env
        (List.replicate (31 + 1) (Observation.failedHeartbeat p)) = _
      unfold runObserve
      rw [List.replicate_succ']
      rw [List.foldl_append, List.foldl_cons, List.foldl_nil]
    rw [hsplit, h31]
    have hc : counterOf ⟨[(p, 31)], [], []⟩ p = 31 := by
      simp [counterOf, List.lookup]
    unfold observeStep
    dsimp only
    rw [hc, if_pos (by omega), if_pos hl]
    refine ⟨(removeNonvoter_fold_adds p env.servers _ hex).1,
      (removeNonvoter_fold_adds p env.servers _ hex).2, ?_⟩
    rw [removeNonvoter_fold_fhb]
    simp [List.filter, List.lookup]
  · intro env2 events hv
    suffices hgen : ∀ (l : List Observation) (s : ObserveState),
        p ∉ s.removedServers →
        p ∉ (l.foldl (observeStep env2) s).removedServers by
      exact hgen events initialObserveState (by simp [initialObserveState])
    intro l
    induction l with
    | nil => intro s hs; exact hs
    | cons ev rest ih =>
      intro s hs
      rw [List.foldl_cons]
      exact ih _ (observeStep_no_voter_removal env2 p hv s ev hs)

/-- Witness for c5_nonvoter_removed_on_32nd at the concrete leader
environment with non-voter n1. -/
theorem c5_nonvoter_removed_on_32nd_witness :
    (∀ k, k ≤ 31 →
      (runObserve leaderEnv
        (List.replicate k (Observation.failedHeartbeat "n1"))).removedServers = [] ∧
      (runObserve leaderEnv
        (List.replicate k (Observation.failedHeartbeat "n1"))).deletedPeers = [] ∧
      counterOf (runObserve leaderEnv
        (List.replicate k (Observation.failedHeartbeat "n1"))) "n1" = k) ∧
    ("n1" ∈ (runObserve leaderEnv
        (List.replicate 32 (Observation.failedHeartbeat "n1"))).removedServers ∧
     "n1" ∈ (runObserve leaderEnv
        (List.replicate 32 (Observation.failedHeartbeat "n1"))).deletedPeers ∧
     (runObserve leaderEnv
        (List.replicate 32 (Observation.failedHeartbeat "n1"))).failedHeartbeats.lookup
        "n1" = none) ∧
    (∀ (env2 : ObserveEnv) (events : List Observation),
      (∀ srv ∈ env2.servers, srv.id = "n1" → srv.suffrage ≠ Suffrage.nonvoter) →
      "n1" ∉ (runObserve env2 events).removedServers) :=
  c5_nonvoter_removed_on_32nd leaderEnv "n1" rfl
    ⟨{ id := "n1", suffrage := Suffrage.nonvoter }, by decide, rfl, rfl⟩

end WebmeshClaims
